import Mathlib

/-!
Verification of the wineo-back marketplace backend.

The development shallowly embeds the JavaScript sources: Mongoose documents
become Lean structures, request handlers and hooks become pure functions
returning Except or tagged results, timestamps are Int, and the current
time is passed explicitly. Fields of a request body that may be absent or
of the wrong runtime type are modelled as Option values, matching the
typeof checks in the handlers.
-/

namespace Wineo

/-! ## Promotion utilities (src/utils/promotion.js)

A listing-shaped object as consumed by the promotion helpers: promotionType
is the raw string field (none when absent), promotionExpiresAt is the
parsed timestamp of the stored expiry value (none when the field is
missing, null, falsy, or parses to an invalid date). -/

structure PromoFields where
  promotionType : Option String
  promotionExpiresAt : Option Int
  createdAt : Int
deriving Repr, DecidableEq

/-- isPromotionActive: true when promotionType is present, not none, and the
expiry parses to a valid time strictly greater than now. -/
def isPromotionActive (now : Int) (l : PromoFields) : Bool :=
  match l.promotionType with
  | none => false
  | some t =>
    if t = "none" then false
    else
      match l.promotionExpiresAt with
      | none => false
      | some e => decide (e > now)

/-- getEffectivePromotionType: the raw type when it is one of homepageTop,
featured, highlighted and the promotion is active; otherwise the string none. -/
def getEffectivePromotionType (now : Int) (l : PromoFields) : String :=
  match l.promotionType with
  | some raw =>
    if raw = "homepageTop" || raw = "featured" || raw = "highlighted" then
      if isPromotionActive now l then raw else "none"
    else "none"
  | none => "none"

/-- getPromotionRank: homepageTop 0, featured 1, highlighted 2, otherwise 3. -/
def getPromotionRank (now : Int) (l : PromoFields) : Nat :=
  let t := getEffectivePromotionType now l
  if t = "homepageTop" then 0
  else if t = "featured" then 1
  else if t = "highlighted" then 2
  else 3

/-- compareByPromotionThenCreatedAtDesc: promotion rank ascending, then
createdAt descending (returns the sign-bearing difference, as the JS
comparator does). -/
def compareByPromotionThenCreatedAtDesc (now : Int) (a b : PromoFields) : Int :=
  let ra : Int := getPromotionRank now a
  let rb : Int := getPromotionRank now b
  if ra ≠ rb then ra - rb
  else b.createdAt - a.createdAt

/-! normalizePromotionInput operates on a raw request body. The expiry field
can arrive as a Date object, a string, a number, or anything else; the first
three are converted with new Date, everything else becomes null. The Option
Int payload is the resulting timestamp, none standing for an invalid date. -/

inductive ExpiryInput where
  | dateVal (t : Option Int)
  | strVal (t : Option Int)
  | numVal (t : Option Int)
  | absent
deriving Repr, DecidableEq

def parseExpiry : ExpiryInput → Option Int
  | .dateVal t => t
  | .strVal t => t
  | .numVal t => t
  | .absent => none

structure PromoBody where
  promotionType : Option String
  promotionExpiresAt : ExpiryInput
deriving Repr, DecidableEq

/-- normalizePromotionInput: unknown types become none; type none forces a
null expiry; a non-none type with a missing, invalid or non-future expiry
collapses to none with null expiry. -/
def normalizePromotionInput (now : Int) (body : PromoBody) : String × Option Int :=
  let rawType := body.promotionType.getD "none"
  let t :=
    if rawType = "homepageTop" || rawType = "featured" || rawType = "highlighted" ||
        rawType = "none" then rawType
    else "none"
  if t = "none" then ("none", none)
  else
    match parseExpiry body.promotionExpiresAt with
    | none => ("none", none)
    | some e => if e ≤ now then ("none", none) else (t, some e)

/-! ## Category model and the save hook (src/models/Category.js) -/

structure Category where
  id : Nat
  parentId : Option Nat
  level : Nat
  path : List Nat
deriving Repr, DecidableEq

/-- The pre-save hook of the category schema: with no parent the level and
path are reset to 0 and empty; with a parent the parent is looked up (error
when missing) and level and path are recomputed from it. It runs on every
save, i.e. on every create and on every update that goes through save. -/
def categoryPreSave (findById : Nat → Option Category) (c : Category) :
    Except String Category :=
  match c.parentId with
  | none => .ok { c with level := 0, path := [] }
  | some pid =>
    match findById pid with
    | none => .error "Parent category not found"
    | some parent => .ok { c with path := parent.path ++ [parent.id], level := parent.level + 1 }

/-! ## User store and login (src/store/users.js, src/routes/auth.js) -/

structure User where
  id : Nat
  email : String
  password : String
deriving Repr, DecidableEq

/-- ASCII model of the JS toLowerCase used on emails and titles. -/
def jsLowerChar (c : Char) : Char :=
  if 'A' ≤ c && c ≤ 'Z' then Char.ofNat (c.toNat + 32) else c

/-- The JS whitespace class, restricted to its ASCII members. -/
def isJsWs (c : Char) : Bool :=
  c = ' ' || c = Char.ofNat 9 || c = Char.ofNat 10 || c = Char.ofNat 13 ||
    c = Char.ofNat 11 || c = Char.ofNat 12

def jsLowerList (l : List Char) : List Char := l.map jsLowerChar

def jsTrimList (l : List Char) : List Char :=
  ((l.dropWhile isJsWs).reverse.dropWhile isJsWs).reverse

def jsLower (s : String) : String := String.mk (jsLowerList s.data)

def jsTrim (s : String) : String := String.mk (jsTrimList s.data)

/-- findByEmail looks users up by the lowercased then trimmed email. -/
def findByEmail (users : List User) (email : String) : Option User :=
  users.find? (fun u => u.email = jsTrim (jsLower email))

inductive LoginResult where
  | err (status : Nat) (msg : String)
  | ok (userId : Nat)
deriving Repr, DecidableEq

/-- POST /auth/login. checkPw models bcrypt.compare applied to the supplied
password and the stored hash. -/
def login (checkPw : String → String → Bool) (users : List User)
    (email password : String) : LoginResult :=
  if jsTrim email = "" || password = "" then
    .err 400 "Email and password are required"
  else
    match findByEmail users email with
    | none => .err 401 "Invalid email or password"
    | some u =>
      if checkPw password u.password then .ok u.id
      else .err 401 "Invalid email or password"

/-! ## Filters and the inheritance resolver (src/models/Filter.js,
src/services/filterService.js) -/

structure Filter where
  id : Nat
  name : String
  sortOrder : Int
  categoryId : Nat
  applyToChildren : Bool
  isActive : Bool
deriving Repr, DecidableEq

/-- The find condition of getFiltersByCategory: active, and either directly
assigned to the found category or assigned to a path ancestor with
applyToChildren set. -/
def filterMatchesCategory (cat : Category) (f : Filter) : Bool :=
  f.isActive &&
    (f.categoryId = cat.id || (f.categoryId ∈ cat.path && f.applyToChildren))

/-- The sort key of getFiltersByCategory: sortOrder ascending, name
ascending as tie-break. -/
def filterSortLE (f g : Filter) : Prop :=
  f.sortOrder < g.sortOrder ∨ (f.sortOrder = g.sortOrder ∧ f.name ≤ g.name)

instance filterSortLE_decidable : DecidableRel filterSortLE := fun f g => by
  unfold filterSortLE
  infer_instance

instance filterSortLE_total : IsTotal Filter filterSortLE := ⟨by
  intro a b
  unfold filterSortLE
  rcases lt_trichotomy a.sortOrder b.sortOrder with h | h | h
  · exact Or.inl (Or.inl h)
  · rcases le_total a.name b.name with hn | hn
    · exact Or.inl (Or.inr ⟨h, hn⟩)
    · exact Or.inr (Or.inr ⟨h.symm, hn⟩)
  · exact Or.inr (Or.inl h)⟩

instance filterSortLE_trans : IsTrans Filter filterSortLE := ⟨by
  intro a b c hab hbc
  unfold filterSortLE at hab hbc ⊢
  rcases hab with h1 | ⟨h1, hn1⟩ <;> rcases hbc with h2 | ⟨h2, hn2⟩
  · exact Or.inl (h1.trans h2)
  · exact Or.inl (h2 ▸ h1)
  · exact Or.inl (h1 ▸ h2)
  · exact Or.inr ⟨h1.trans h2, hn1.trans hn2⟩⟩

/-- getFiltersByCategory: resolve the category (null when absent), then
return the active filters that match it directly or through the path with
applyToChildren, sorted by sortOrder then name. A pure read: it takes the
category and filter stores and only returns a list. -/
def getFiltersByCategory (findCat : Nat → Option Category) (filters : List Filter)
    (categoryId : Nat) : Option (List Filter) :=
  match findCat categoryId with
  | none => none
  | some cat =>
    some (List.insertionSort filterSortLE (filters.filter (filterMatchesCategory cat)))

/-! ## Product listing (src/routes/products.js GET handler)

A listing document as it flows through the GET /products pipeline and the
promotion helpers: the handler consults status, type, category.slug,
createdAt; the promotion utility reads promotionType and promotionExpiresAt
from the same document shape. -/

structure ProductDoc where
  slug : String
  status : String
  type : String
  categorySlug : String
  createdAt : Int
  promotionType : Option String
  promotionExpiresAt : Option Int
deriving Repr, DecidableEq

def promoOf (d : ProductDoc) : PromoFields :=
  ⟨d.promotionType, d.promotionExpiresAt, d.createdAt⟩

structure ProductQuery where
  status : Option String
  type : Option String
  categorySlug : Option String
  limit : Nat
  skip : Nat
deriving Repr, DecidableEq

/-- The query filter built by GET /products: each criterion applies only
when the parameter is present and truthy; categorySlug is trimmed and
lowercased first and ignored when that leaves it empty. -/
def listingMatchesQuery (q : ProductQuery) (d : ProductDoc) : Bool :=
  (match q.status with
    | none => true
    | some s => if s = "" then true else d.status = s) &&
  (match q.type with
    | none => true
    | some t => if t = "" then true else d.type = t) &&
  (match q.categorySlug with
    | none => true
    | some cs =>
      if cs = "" then true
      else
        let slug := jsLower (jsTrim cs)
        if slug = "" then true else d.categorySlug = slug)

/-- The sort applied by GET /products: createdAt descending only. -/
def createdAtDescLE (a b : ProductDoc) : Prop := b.createdAt ≤ a.createdAt

instance createdAtDescLE_decidable : DecidableRel createdAtDescLE := fun a b => by
  unfold createdAtDescLE
  infer_instance

instance createdAtDescLE_total : IsTotal ProductDoc createdAtDescLE :=
  ⟨fun a b => le_total b.createdAt a.createdAt⟩

instance createdAtDescLE_trans : IsTrans ProductDoc createdAtDescLE :=
  ⟨fun _ _ _ hab hbc => le_trans hbc hab⟩

/-- GET /products: filter by the query, sort by createdAt descending, then
apply skip and the limit capped at 100. -/
def listProducts (docs : List ProductDoc) (q : ProductQuery) : List ProductDoc :=
  (((docs.filter (listingMatchesQuery q)).insertionSort createdAtDescLE).drop q.skip).take
    (min q.limit 100)

/-- The ordering the specification claims for the default listing: the
promotion comparator is non-positive on every adjacent pair. -/
def claimedPromotionOrder (now : Int) (a b : ProductDoc) : Prop :=
  compareByPromotionThenCreatedAtDesc now (promoOf a) (promoOf b) ≤ 0

instance claimedPromotionOrder_decidable (now : Int) :
    DecidableRel (claimedPromotionOrder now) := fun a b => by
  unfold claimedPromotionOrder
  infer_instance

/-- An older listing with an active homepageTop promotion. -/
def promotedOldDoc : ProductDoc :=
  ⟨"old-promoted", "active", "sell", "cars", 1, some "homepageTop", some 1000⟩

/-- A newer listing with no promotion at all. -/
def plainNewDoc : ProductDoc :=
  ⟨"new-plain", "active", "sell", "cars", 2, none, none⟩

/-- The default GET /products query: no filters, limit 50, skip 0. -/
def defaultProductQuery : ProductQuery := ⟨none, none, none, 50, 0⟩

/-! ## Slug derivation (src/routes/products.js slugFromTitle)

The JS pipeline is trim, toLowerCase, whitespace runs to hyphens, removal
of characters outside lowercase alphanumerics and hyphen, hyphen runs
collapsed, one leading and one trailing hyphen removed, with a timestamp
token fallback when the title is absent or the result empty. -/

def isLowerAlnum (c : Char) : Bool :=
  ('a' ≤ c && c ≤ 'z') || ('0' ≤ c && c ≤ '9')

def isSlugChar (c : Char) : Bool := isLowerAlnum c || c = '-'

def isHyphen (c : Char) : Bool := c = '-'

/-- Replace every maximal run of characters satisfying p with the single
character o, as the global regex replace of a one-class-run pattern does.
The Bool argument records whether the previous character was in a run. -/
def collapseAux (p : Char → Bool) (o : Char) : Bool → List Char → List Char
  | _, [] => []
  | inRun, c :: rest =>
    if p c then
      if inRun then collapseAux p o true rest
      else o :: collapseAux p o true rest
    else c :: collapseAux p o false rest

def collapseRuns (p : Char → Bool) (o : Char) (l : List Char) : List Char :=
  collapseAux p o false l

/-- Remove one leading hyphen, as the anchored alternative of the final
replace does. -/
def stripLead : List Char → List Char
  | [] => []
  | c :: t => if c = '-' then t else c :: t

/-- The run-tracking state of collapseAux after consuming a list: whether
the last consumed character was in a run. -/
def runState (p : Char → Bool) : Bool → List Char → Bool
  | b, [] => b
  | _, c :: rest => runState p (p c) rest

/-- Remove one trailing hyphen. -/
def stripTrail (l : List Char) : List Char :=
  match l.getLast? with
  | some c => if c = '-' then l.dropLast else l
  | none => l

def stripEdges (l : List Char) : List Char := stripTrail (stripLead l)

/-- The replace chain applied after trim and toLowerCase. -/
def slugCore (l : List Char) : List Char :=
  stripEdges (collapseRuns isHyphen '-' ((collapseRuns isJsWs '-' l).filter isSlugChar))

def slugDerive (title : String) : List Char :=
  slugCore (jsLowerList (jsTrimList title.data))

def fallbackToken (now : Nat) : String := "listing-" ++ toString now

/-- slugFromTitle: derive the slug from the title, falling back to a
timestamp-based token when the title is absent or the derivation empty. -/
def slugFromTitle (title : String) (now : Nat) : String :=
  if title = "" then fallbackToken now
  else if slugDerive title = [] then fallbackToken now
  else String.mk (slugDerive title)

/-- The slug regex of the schema and routes, as a matcher: one or more
lowercase alphanumerics, then any number of groups of a hyphen followed by
one or more lowercase alphanumerics. slugTail accepts the remainder after
an alphanumeric has just been read. -/
def slugTail : List Char → Bool
  | [] => true
  | c :: rest =>
    if isLowerAlnum c then slugTail rest
    else if c = '-' then
      match rest with
      | [] => false
      | d :: rest2 => isLowerAlnum d && slugTail rest2
    else false

def isValidSlug : List Char → Bool
  | [] => false
  | c :: rest => isLowerAlnum c && slugTail rest

/-! ## Listing creation (src/routes/products.js POST handler,
src/models/Listing.js pre-save hook)

Request body fields are Option-valued: none models an absent field or one
of the wrong runtime type. price is the result of Number(body.price), with
none standing for NaN. Fields that have no bearing on the verified claims
(attributes, specifications, seo fields) are elided. -/

structure ListingCategory where
  name : String
  slug : String
deriving Repr, DecidableEq

structure LocationInput where
  region : String
  city : String
deriving Repr, DecidableEq

structure CreateBody where
  title : Option String
  slug : Option String
  description : Option String
  type : Option String
  category : Option ListingCategory
  categoryId : Option Nat
  price : Option Int
  priceType : Option String
  currency : Option String
  rentPeriod : Option String
  location : Option LocationInput
  images : List String
  thumbnail : Option String
  status : Option String
deriving Repr, DecidableEq

structure Listing where
  title : String
  slug : String
  description : String
  type : String
  category : ListingCategory
  categoryId : Option Nat
  price : Int
  currency : String
  priceType : String
  rentPeriod : Option String
  images : List String
  thumbnail : Option String
  location : LocationInput
  ownerId : Nat
  status : String
deriving Repr, DecidableEq

/-- JS falsiness of an optional string: absent or empty. -/
def strFalsy : Option String → Bool
  | none => true
  | some s => s = ""

/-- The listing pre-save hook: clear rentPeriod on sell, reject rent
without a rentPeriod, default the thumbnail to the first image. Runs on
every save, i.e. on create and on update. -/
def listingPreSave (l : Listing) : Except String Listing :=
  let a := if l.type = "sell" then { l with rentPeriod := none } else l
  if a.type = "rent" && strFalsy a.rentPeriod then
    .error "Rent period is required when listing type is rent"
  else
    let b :=
      if strFalsy a.thumbnail && decide (0 < a.images.length) then
        { a with thumbnail := some (a.images.headD "") }
      else a
    .ok b

/-- The slug the POST handler uses: a provided non-blank slug is normalized
by the same replace chain (falling back to the title-derived slug when that
normalization is empty); otherwise the slug is derived from the title. -/
def requestSlug (bodySlug : Option String) (title : String) (now : Nat) : String :=
  match bodySlug with
  | some s =>
    if jsTrim s = "" then slugFromTitle title now
    else
      let d := slugCore (jsLowerList (jsTrimList s.data))
      if d = [] then slugFromTitle title now else String.mk d
  | none => slugFromTitle title now

/-! The local values the POST /products handler computes from the body,
each as a named definition (they mirror the const bindings of the
handler). -/

def titleOf (body : CreateBody) : String := jsTrim (body.title.getD "")

def slugOf (body : CreateBody) (now : Nat) : String :=
  requestSlug body.slug (titleOf body) now

def descriptionOf (body : CreateBody) : String := jsTrim (body.description.getD "")

def typeOf (body : CreateBody) : String :=
  if body.type = some "rent" then "rent" else "sell"

def priceTypeOf (body : CreateBody) : String :=
  if body.priceType = some "negotiable" then "negotiable" else "fixed"

/-- The stored price: a negotiable listing with a missing or negative
numeric price stores 0, otherwise the numeric price is stored. -/
def priceValueOf (body : CreateBody) : Int :=
  if priceTypeOf body = "negotiable" then
    if body.price.isNone || decide (body.price.getD 0 < 0) then 0
    else body.price.getD 0
  else body.price.getD 0

def currencyOf (body : CreateBody) : String :=
  if body.currency = some "USD" then "USD" else "GEL"

def rentPeriodOf (body : CreateBody) : Option String :=
  if typeOf body = "rent" then
    if strFalsy body.rentPeriod then none else body.rentPeriod
  else none

def imagesOf (body : CreateBody) : List String :=
  body.images.filter (fun u => jsTrim u ≠ "")

def thumbRawOf (body : CreateBody) : String :=
  match body.thumbnail with
  | some t => if jsTrim t = "" then (imagesOf body).headD "" else jsTrim t
  | none => (imagesOf body).headD ""

def statusOf (body : CreateBody) : String :=
  match body.status with
  | some s => if s = "" then "active" else s
  | none => "active"

/-- The listing handed to Listing.create by the handler. -/
def pendingListing (ownerId : Nat) (body : CreateBody) (now : Nat)
    (cat : ListingCategory) (loc : LocationInput) : Listing :=
  { title := titleOf body, slug := slugOf body now,
    description := descriptionOf body, type := typeOf body,
    category := cat, categoryId := body.categoryId,
    price := priceValueOf body, currency := currencyOf body,
    priceType := priceTypeOf body,
    rentPeriod := if typeOf body = "rent" then rentPeriodOf body else none,
    images := imagesOf body,
    thumbnail := if thumbRawOf body = "" then none else some (thumbRawOf body),
    location := ⟨jsTrim loc.region, jsTrim loc.city⟩,
    ownerId := ownerId, status := statusOf body }

/-- The validation sequence of the POST /products handler, in handler
order. findCat resolves categoryId lookups, slugExists models the
duplicate-slug query, now feeds the fallback token. -/
def validateProduct (findCat : Nat → Option Category) (slugExists : String → Bool)
    (ownerId : Nat) (body : CreateBody) (now : Nat) : Except (Nat × String) Listing :=
  if titleOf body = "" then .error (400, "Title is required")
  else if slugOf body now = "" || !isValidSlug (slugOf body now).data then
    .error (400, "Slug must be URL-friendly (lowercase, hyphens only)")
  else if slugExists (slugOf body now) then
    .error (409, "A listing with this slug already exists")
  else if descriptionOf body = "" then
    .error (400, "Description is required")
  else
    match body.category with
    | none => .error (400, "Category with name and slug is required")
    | some cat =>
      if cat.name = "" || cat.slug = "" then
        .error (400, "Category with name and slug is required")
      else if body.categoryId.isSome && (findCat (body.categoryId.getD 0)).isNone then
        .error (400, "Category not found")
      else if priceTypeOf body = "fixed" && (body.price.isNone || decide (body.price.getD 0 < 0)) then
        .error (400, "Valid price is required")
      else if typeOf body = "rent" && (rentPeriodOf body).isNone then
        .error (400, "Rent period is required for rent listings")
      else
        match body.location with
        | none => .error (400, "Location with region and city is required")
        | some loc =>
          if loc.region = "" || loc.city = "" then
            .error (400, "Location with region and city is required")
          else .ok (pendingListing ownerId body now cat loc)

/-- POST /products: validate, then run the created listing through the
pre-save hook (a hook error surfaces as a 500, as a non-validation error
does in the route). -/
def createProduct (findCat : Nat → Option Category) (slugExists : String → Bool)
    (ownerId : Nat) (body : CreateBody) (now : Nat) : Except (Nat × String) Listing :=
  match validateProduct findCat slugExists ownerId body now with
  | .error e => .error e
  | .ok pending =>
    match listingPreSave pending with
    | .ok saved => .ok saved
    | .error _ => .error (500, "Failed to create product")


/-- A concrete rent-type request body with no rentPeriod and every other
field valid. -/
def rentBodyNoPeriod : CreateBody :=
  { title := some "My Bike", slug := none, description := some "Nice bike",
    type := some "rent", category := some ⟨"Bikes", "bikes"⟩, categoryId := none,
    price := some 10, priceType := none, currency := none, rentPeriod := none,
    location := some ⟨"Tbilisi", "Tbilisi"⟩, images := [], thumbnail := none,
    status := none }

/-! Definitions following the wording of the specification, for comparison
with the code-derived slug pipeline. -/

/-- Following the original claim wording: lowercase, collapse runs of
non-alphanumeric characters to single hyphens, trim leading and trailing
hyphens, fall back to the generated token when empty. -/
def slugFromTitleClaimed (title : String) (now : Nat) : String :=
  let s :=
    (((collapseRuns (fun c => !isLowerAlnum c) '-' (jsLowerList title.data)).dropWhile
      isHyphen).reverse.dropWhile isHyphen).reverse
  if s = [] then fallbackToken now else String.mk s

/-- Following the amended claim wording: lowercase, convert whitespace runs
to single hyphens, delete the other non-alphanumeric characters, collapse
hyphen runs, trim leading and trailing hyphens, fall back to the generated
token when empty. Unlike the code it does not trim the title first. -/
def slugFromTitleAmendedSpec (title : String) (now : Nat) : String :=
  let s := slugCore (jsLowerList title.data)
  if s = [] then fallbackToken now else String.mk s

/-- A concrete creation body whose title is a.b and which carries no slug. -/
def dotTitleBody : CreateBody :=
  { title := some "a.b", slug := none, description := some "Desc",
    type := none, category := some ⟨"C", "c"⟩, categoryId := none,
    price := some 1, priceType := none, currency := none, rentPeriod := none,
    location := some ⟨"R", "T"⟩, images := [], thumbnail := none, status := none }

/-- The listing stored for dotTitleBody: its slug is ab, not a-b. -/
def dotTitleCreated : Listing :=
  { title := "a.b", slug := "ab", description := "Desc", type := "sell",
    category := ⟨"C", "c"⟩, categoryId := none, price := 1, currency := "GEL",
    priceType := "fixed", rentPeriod := none, images := [], thumbnail := none,
    location := ⟨"R", "T"⟩, ownerId := 1, status := "active" }

/-! ## Image pipeline (src/services/r2.js processProductImages)

Object-store effects are recorded as a trace of operations. Bytes are
modelled as Nat; resize bytes size stands for the sharp resize of bytes to
a size by size cover crop; store maps an object key to the bytes currently
stored under it, none meaning the fetch rejects. Writes and deletes always
succeed in the model, as the claim quantifies over successful runs. -/

inductive S3Op where
  | get (key : String)
  | put (key : String) (bytes : Nat)
  | del (key : String)
deriving Repr, DecidableEq

/-- The deterministic per-listing output key image-(i+1). -/
def imageKey (productId : String) (i : Nat) : String :=
  "products/" ++ productId ++ "/image-" ++ toString (i + 1) ++ ".jpg"

def thumbnailKey (productId : String) : String :=
  "products/" ++ productId ++ "/thumbnail.jpg"

/-- The loop of processProductImages: for index i, fetch the temp object,
write the derived outputs (index 0 writes the 400 thumbnail and then the
800 image-1, later indices write the 800 image-(i+1)), then delete the
temp object, and continue with the rest. -/
def processLoop (resize : Nat → Nat → Nat) (store : String → Option Nat)
    (productId : String) : Nat → List String → Except String (List S3Op)
  | _, [] => .ok []
  | i, k :: rest =>
    match store k with
    | none => .error ("failed to fetch " ++ k)
    | some raw =>
      let outs :=
        if i = 0 then
          [S3Op.put (thumbnailKey productId) (resize raw 400),
           S3Op.put (imageKey productId 0) (resize raw 800)]
        else [S3Op.put (imageKey productId i) (resize raw 800)]
      match processLoop resize store productId (i + 1) rest with
      | .error e => .error e
      | .ok ops => .ok ((S3Op.get k :: outs ++ [S3Op.del k]) ++ ops)

/-- processProductImages: empty input returns null thumbnail and no URLs;
a missing public URL is an error; otherwise the loop runs over all temp
keys and the public thumbnail URL and the public image URLs (in input
order) are returned together with the operation trace. -/
def processProductImages (resize : Nat → Nat → Nat) (store : String → Option Nat)
    (publicUrl productId : String) (tempKeys : List String) :
    Except String (Option String × List String × List S3Op) :=
  if tempKeys.isEmpty then .ok (none, [], [])
  else if publicUrl = "" then .error "R2_PUBLIC_URL is required"
  else
    match processLoop resize store productId 0 tempKeys with
    | .error e => .error e
    | .ok ops =>
      .ok (some (publicUrl ++ "/" ++ thumbnailKey productId),
        (List.range tempKeys.length).map (fun i => publicUrl ++ "/" ++ imageKey productId i),
        ops)

/-- The closed-form trace block for the temp key at position p.1: fetch,
then the derived puts (both thumbnail and image-1 at position 0), then the
deletion of the temp source, in that order. -/
def opsBlockOf (resize : Nat → Nat → Nat) (store : String → Option Nat)
    (productId : String) (p : Nat × String) : List S3Op :=
  S3Op.get p.2 ::
    (if p.1 = 0 then
      [S3Op.put (thumbnailKey productId) (resize ((store p.2).getD 0) 400),
       S3Op.put (imageKey productId 0) (resize ((store p.2).getD 0) 800)]
    else [S3Op.put (imageKey productId p.1) (resize ((store p.2).getD 0) 800)]) ++
    [S3Op.del p.2]

/-- The closed form of the whole trace from start index i. -/
def expectedOpsFrom (resize : Nat → Nat → Nat) (store : String → Option Nat)
    (productId : String) (i : Nat) (keys : List String) : List S3Op :=
  ((List.enumFrom i keys).map (opsBlockOf resize store productId)).flatten

/-- A concrete fixed-price request body with a negative price. -/
def fixedNegBody : CreateBody :=
  { title := some "Phone", slug := none, description := some "Good",
    type := none, category := some ⟨"Electronics", "electronics"⟩, categoryId := none,
    price := some (-5), priceType := some "fixed", currency := none, rentPeriod := none,
    location := some ⟨"A", "B"⟩, images := [], thumbnail := none, status := none }

/-- A concrete negotiable request body with no numeric price. -/
def negotiableNoPriceBody : CreateBody :=
  { title := some "Phone", slug := none, description := some "Good",
    type := none, category := some ⟨"Electronics", "electronics"⟩, categoryId := none,
    price := none, priceType := some "negotiable", currency := none, rentPeriod := none,
    location := some ⟨"A", "B"⟩, images := [], thumbnail := none, status := none }

/-- The listing stored for negotiableNoPriceBody. -/
def negotiableCreated : Listing :=
  { title := "Phone", slug := "phone", description := "Good", type := "sell",
    category := ⟨"Electronics", "electronics"⟩, categoryId := none,
    price := 0, currency := "GEL", priceType := "negotiable", rentPeriod := none,
    images := [], thumbnail := none, location := ⟨"A", "B"⟩, ownerId := 1,
    status := "active" }

-- ===== Theorems =====

theorem charToNat_ofNat_valid (n : Nat) (h : n.isValidChar) :
    (Char.ofNat n).toNat = n := by
  unfold Char.ofNat
  rw [dif_pos h]
  unfold Char.ofNatAux Char.toNat
  rfl

theorem char_ne_of_toNat_ne (c d : Char) (h : c.toNat ≠ d.toNat) : c ≠ d :=
  fun he => h (he ▸ rfl)

/-- Lowercasing does not change whether a character is whitespace. -/
theorem isJsWs_jsLowerChar (c : Char) : isJsWs (jsLowerChar c) = isJsWs c := by
  unfold jsLowerChar
  split
  · rename_i h
    simp only [Bool.and_eq_true, decide_eq_true_eq, Char.le_def] at h
    have hv : (65 : Nat) ≤ c.toNat ∧ c.toNat ≤ 90 := h
    have hvalid : (c.toNat + 32).isValidChar := Or.inl (by omega)
    have htn : (Char.ofNat (c.toNat + 32)).toNat = c.toNat + 32 :=
      charToNat_ofNat_valid _ hvalid
    have e1 : Char.ofNat (c.toNat + 32) ≠ ' ' :=
      char_ne_of_toNat_ne _ _ (by rw [htn]; show c.toNat + 32 ≠ 32; omega)
    have e2 : Char.ofNat (c.toNat + 32) ≠ Char.ofNat 9 :=
      char_ne_of_toNat_ne _ _ (by rw [htn]; show c.toNat + 32 ≠ 9; omega)
    have e3 : Char.ofNat (c.toNat + 32) ≠ Char.ofNat 10 :=
      char_ne_of_toNat_ne _ _ (by rw [htn]; show c.toNat + 32 ≠ 10; omega)
    have e4 : Char.ofNat (c.toNat + 32) ≠ Char.ofNat 13 :=
      char_ne_of_toNat_ne _ _ (by rw [htn]; show c.toNat + 32 ≠ 13; omega)
    have e5 : Char.ofNat (c.toNat + 32) ≠ Char.ofNat 11 :=
      char_ne_of_toNat_ne _ _ (by rw [htn]; show c.toNat + 32 ≠ 11; omega)
    have e6 : Char.ofNat (c.toNat + 32) ≠ Char.ofNat 12 :=
      char_ne_of_toNat_ne _ _ (by rw [htn]; show c.toNat + 32 ≠ 12; omega)
    have f1 : c ≠ ' ' := char_ne_of_toNat_ne _ _ (by show c.toNat ≠ 32; omega)
    have f2 : c ≠ Char.ofNat 9 := char_ne_of_toNat_ne _ _ (by show c.toNat ≠ 9; omega)
    have f3 : c ≠ Char.ofNat 10 := char_ne_of_toNat_ne _ _ (by show c.toNat ≠ 10; omega)
    have f4 : c ≠ Char.ofNat 13 := char_ne_of_toNat_ne _ _ (by show c.toNat ≠ 13; omega)
    have f5 : c ≠ Char.ofNat 11 := char_ne_of_toNat_ne _ _ (by show c.toNat ≠ 11; omega)
    have f6 : c ≠ Char.ofNat 12 := char_ne_of_toNat_ne _ _ (by show c.toNat ≠ 12; omega)
    simp [isJsWs, e1, e2, e3, e4, e5, e6, f1, f2, f3, f4, f5, f6]
  · rfl

/-- Lowercasing commutes with trimming: the login lookup key equals the
trimmed-then-lowercased email as well as the lowercased-then-trimmed one. -/
theorem jsTrimList_jsLowerList (l : List Char) :
    jsTrimList (jsLowerList l) = jsLowerList (jsTrimList l) := by
  unfold jsTrimList jsLowerList
  have hd : ∀ m : List Char, (m.map jsLowerChar).dropWhile isJsWs =
      (m.dropWhile isJsWs).map jsLowerChar := by
    intro m
    rw [List.dropWhile_map]
    have hp : (isJsWs ∘ jsLowerChar) = isJsWs := by
      funext c
      simp [Function.comp, isJsWs_jsLowerChar]
    rw [hp]
  rw [hd, ← List.map_reverse, hd, List.map_reverse]

/-- C8: getEffectivePromotionType returns none whenever the expiry is
missing, invalid, or less than or equal to now, regardless of the stored
promotionType; and when it returns a value other than none, that value is
the stored promotionType, is one of highlighted, featured, homepageTop, and
the expiry is strictly in the future. -/
theorem effectivePromotionType_none_unless_future (now : Int) (l : PromoFields) :
    (∀ e, l.promotionExpiresAt = some e → e ≤ now → getEffectivePromotionType now l = "none") ∧
    (l.promotionExpiresAt = none → getEffectivePromotionType now l = "none") ∧
    (∀ t, getEffectivePromotionType now l = t → t ≠ "none" →
      l.promotionType = some t ∧
      (t = "highlighted" ∨ t = "featured" ∨ t = "homepageTop") ∧
      ∃ e, l.promotionExpiresAt = some e ∧ now < e) := by
  obtain ⟨pt, pe, ca⟩ := l
  refine ⟨?_, ?_, ?_⟩
  · rintro e rfl hle
    cases pt with
    | none => rfl
    | some raw =>
      simp only [getEffectivePromotionType, isPromotionActive]
      have hd : decide (e > now) = false := by
        simp only [decide_eq_false_iff_not]
        omega
      rw [hd]
      simp
  · rintro rfl
    cases pt with
    | none => rfl
    | some raw =>
      simp only [getEffectivePromotionType, isPromotionActive]
      simp
  · rintro t ht hne
    cases pt with
    | none =>
      simp only [getEffectivePromotionType] at ht
      exact absurd ht.symm hne
    | some raw =>
      simp only [getEffectivePromotionType] at ht
      split at ht
      · rename_i hcond
        split at ht
        · rename_i hact
          subst ht
          refine ⟨rfl, ?_, ?_⟩
          · simp only [Bool.or_eq_true, decide_eq_true_eq] at hcond
            tauto
          · simp only [isPromotionActive] at hact
            split at hact
            · exact absurd hact (by simp)
            · cases pe with
              | none => exact absurd hact (by simp)
              | some e =>
                simp only [decide_eq_true_eq] at hact
                exact ⟨e, rfl, by omega⟩
        · exact absurd ht.symm hne
      · exact absurd ht.symm hne

/-- Witness for C8 at a concrete listing: an active featured promotion. -/
theorem effectivePromotionType_none_unless_future_witness :
    ∃ e, (PromoFields.mk (some "featured") (some 50) 0).promotionExpiresAt = some e ∧ (10 : Int) < e :=
  ((effectivePromotionType_none_unless_future 10
    (PromoFields.mk (some "featured") (some 50) 0)).2.2 "featured" rfl (by decide)).2.2

/-- C10: the output of normalizePromotionInput has type none exactly when it
has a null expiry, and a non-none output type comes with a valid expiry
strictly greater than now. -/
theorem normalizePromotionInput_invariant (now : Int) (body : PromoBody) :
    ((normalizePromotionInput now body).1 = "none" ↔
      (normalizePromotionInput now body).2 = none) ∧
    ((normalizePromotionInput now body).1 ≠ "none" →
      ∃ e, (normalizePromotionInput now body).2 = some e ∧ now < e) := by
  obtain ⟨pt, pe⟩ := body
  cases pt with
  | none => simp [normalizePromotionInput]
  | some raw =>
    by_cases hn : raw = "none"
    · simp [normalizePromotionInput, hn]
    · by_cases hc : (decide (raw = "homepageTop") || decide (raw = "featured") ||
          decide (raw = "highlighted") || decide (raw = "none")) = true
      · cases hp : parseExpiry pe with
        | none => simp [normalizePromotionInput, hc, hn, hp]
        | some e =>
          by_cases hle : e ≤ now
          · simp [normalizePromotionInput, hc, hn, hp, hle]
          · simp only [normalizePromotionInput, Option.getD_some, hc, if_true, if_neg hn,
              hp, if_neg hle]
            exact ⟨⟨fun h2 => absurd h2 hn, fun h2 => by simp at h2⟩,
              fun _ => ⟨e, rfl, by omega⟩⟩
      · simp [normalizePromotionInput, hc]

/-- Witness for C10: a featured promotion with a future expiry passes
through, and the invariant gives its future-time witness. -/
theorem normalizePromotionInput_invariant_witness :
    ∃ e, (normalizePromotionInput 10 (PromoBody.mk (some "featured") (.numVal (some 50)))).2 = some e ∧
      (10 : Int) < e :=
  (normalizePromotionInput_invariant 10
    (PromoBody.mk (some "featured") (.numVal (some 50)))).2 (by decide)

/-- C1: whenever a category save succeeds, a category with a parent gets
level equal to the parent level plus one and path equal to the parent path
with the parent id appended, and a category without a parent gets level 0
and empty path; this holds on every save, hence on every create or update. -/
theorem categoryPreSave_path_level (findById : Nat → Option Category)
    (c res : Category) (h : categoryPreSave findById c = .ok res) :
    (c.parentId = none → res.level = 0 ∧ res.path = []) ∧
    (∀ pid, c.parentId = some pid →
      ∃ parent, findById pid = some parent ∧
        res.level = parent.level + 1 ∧ res.path = parent.path ++ [parent.id]) := by
  constructor
  · intro hp
    simp only [categoryPreSave, hp] at h
    cases h
    exact ⟨rfl, rfl⟩
  · intro pid hp
    simp only [categoryPreSave, hp] at h
    cases hf : findById pid with
    | none => rw [hf] at h; cases h
    | some parent =>
      rw [hf] at h
      cases h
      exact ⟨parent, rfl, rfl, rfl⟩

/-- Witness for C1: saving a child under a concrete root parent recomputes
level 1 and path equal to the parent id. -/
theorem categoryPreSave_path_level_witness :
    ∃ parent,
      (fun pid => if pid = 1 then some (Category.mk 1 none 0 []) else none) 1 = some parent ∧
      (Category.mk 2 (some 1) 1 [1]).level = parent.level + 1 ∧
      (Category.mk 2 (some 1) 1 [1]).path = parent.path ++ [parent.id] :=
  (categoryPreSave_path_level
    (fun pid => if pid = 1 then some (Category.mk 1 none 0 []) else none)
    (Category.mk 2 (some 1) 7 [9, 9])
    (Category.mk 2 (some 1) 1 [1]) rfl).2 1 rfl


/-- C7: both login failure causes, unknown email and wrong password for an
existing user, produce the identical observable response, status 401 with
the message Invalid email or password, so the response does not reveal
whether the email is registered; and the lookup key is the trimmed,
lowercased email (lowercasing and trimming commute, so the order the code
applies them in is immaterial). -/
theorem login_failures_indistinguishable
    (checkPw : String → String → Bool) (users : List User) (email password : String)
    (hEmail : jsTrim email ≠ "") (hPw : password ≠ "") :
    (findByEmail users email = none →
      login checkPw users email password = .err 401 "Invalid email or password") ∧
    (∀ u, findByEmail users email = some u → checkPw password u.password = false →
      login checkPw users email password = .err 401 "Invalid email or password") ∧
    findByEmail users email =
      users.find? (fun u => u.email = String.mk (jsLowerList (jsTrimList email.data))) := by
  refine ⟨?_, ?_, ?_⟩
  · intro hf
    unfold login
    rw [if_neg (by simp [hEmail, hPw]), hf]
  · intro u hf hpw
    unfold login
    rw [if_neg (by simp [hEmail, hPw]), hf]
    simp [hpw]
  · unfold findByEmail jsTrim jsLower
    rw [jsTrimList_jsLowerList]

/-- Witness for C7: a concrete user store in which a wrong password yields
the same 401 response that an unknown email would. -/
theorem login_failures_indistinguishable_witness :
    login (fun _ _ => false) [User.mk 1 "bob@x.com" "h1"] " BOB@X.com " "wrong" =
      .err 401 "Invalid email or password" :=
  (login_failures_indistinguishable (fun _ _ => false) [User.mk 1 "bob@x.com" "h1"]
    " BOB@X.com " "wrong" (by decide) (by decide)).2.1
    (User.mk 1 "bob@x.com" "h1") (by decide) rfl

/-- C2: getFiltersByCategory returns null exactly when the category id does
not resolve; otherwise it returns exactly the active filters assigned to
the category directly or to a path ancestor with applyToChildren, sorted by
sortOrder ascending with name ascending as tie-break, and in particular
never an inactive filter. -/
theorem getFiltersByCategory_spec (findCat : Nat → Option Category)
    (filters : List Filter) (categoryId : Nat) :
    (getFiltersByCategory findCat filters categoryId = none ↔ findCat categoryId = none) ∧
    (∀ cat, findCat categoryId = some cat →
      ∃ out, getFiltersByCategory findCat filters categoryId = some out ∧
        List.Sorted filterSortLE out ∧
        out.Perm (filters.filter (filterMatchesCategory cat)) ∧
        ∀ f, f ∈ out ↔ f ∈ filters ∧ f.isActive = true ∧
          (f.categoryId = cat.id ∨ (f.categoryId ∈ cat.path ∧ f.applyToChildren = true))) := by
  cases hc : findCat categoryId with
  | none =>
    refine ⟨by simp [getFiltersByCategory, hc], ?_⟩
    intro cat hcat
    simp [hc] at hcat
  | some cat =>
    refine ⟨by simp [getFiltersByCategory, hc], ?_⟩
    intro cat2 hcat
    injection hcat with hcc
    subst hcc
    refine ⟨List.insertionSort filterSortLE (filters.filter (filterMatchesCategory cat)),
      by simp [getFiltersByCategory, hc], ?_, ?_, ?_⟩
    · exact List.sorted_insertionSort filterSortLE _
    · exact List.perm_insertionSort filterSortLE _
    · intro f
      rw [(List.perm_insertionSort filterSortLE _).mem_iff, List.mem_filter]
      unfold filterMatchesCategory
      simp [and_assoc]

/-- Witness for C2 on a concrete store: a two-level category tree with an
inherited, a direct, an inactive and a non-inheriting ancestor filter. -/
theorem getFiltersByCategory_spec_witness :
    ∃ out,
      getFiltersByCategory
        (fun i => if i = 2 then some (Category.mk 2 (some 1) 1 [1]) else
          if i = 1 then some (Category.mk 1 none 0 []) else none)
        [Filter.mk 10 "inherited" 5 1 true true,
         Filter.mk 11 "direct" 1 2 false true,
         Filter.mk 12 "inactive" 0 2 false false,
         Filter.mk 13 "not-inherited" 0 1 false true] 2 = some out ∧
      List.Sorted filterSortLE out ∧
      out.Perm ([Filter.mk 10 "inherited" 5 1 true true,
         Filter.mk 11 "direct" 1 2 false true,
         Filter.mk 12 "inactive" 0 2 false false,
         Filter.mk 13 "not-inherited" 0 1 false true].filter
           (filterMatchesCategory (Category.mk 2 (some 1) 1 [1]))) ∧
      ∀ f, f ∈ out ↔
        f ∈ [Filter.mk 10 "inherited" 5 1 true true,
         Filter.mk 11 "direct" 1 2 false true,
         Filter.mk 12 "inactive" 0 2 false false,
         Filter.mk 13 "not-inherited" 0 1 false true] ∧ f.isActive = true ∧
        (f.categoryId = (Category.mk 2 (some 1) 1 [1]).id ∨
          (f.categoryId ∈ (Category.mk 2 (some 1) 1 [1]).path ∧ f.applyToChildren = true)) :=
  (getFiltersByCategory_spec
    (fun i => if i = 2 then some (Category.mk 2 (some 1) 1 [1]) else
      if i = 1 then some (Category.mk 1 none 0 []) else none)
    [Filter.mk 10 "inherited" 5 1 true true,
     Filter.mk 11 "direct" 1 2 false true,
     Filter.mk 12 "inactive" 0 2 false false,
     Filter.mk 13 "not-inherited" 0 1 false true] 2).2
    (Category.mk 2 (some 1) 1 [1]) rfl

/-- C3 counterexample: with an older actively homepageTop-promoted listing
and a newer unpromoted one, the default GET /products output is ordered by
createdAt descending only, so the unpromoted listing (promotion rank 3)
precedes the promoted one (promotion rank 0), violating the claimed
promotion-rank-ascending order. -/
theorem listProducts_claim_counterexample :
    listProducts [promotedOldDoc, plainNewDoc] defaultProductQuery =
      [plainNewDoc, promotedOldDoc] ∧
    getPromotionRank 0 (promoOf promotedOldDoc) = 0 ∧
    getPromotionRank 0 (promoOf plainNewDoc) = 3 ∧
    ¬ List.Sorted (claimedPromotionOrder 0)
        (listProducts [promotedOldDoc, plainNewDoc] defaultProductQuery) := by
  refine ⟨by decide, by decide, by decide, ?_⟩
  rw [show listProducts [promotedOldDoc, plainNewDoc] defaultProductQuery =
    [plainNewDoc, promotedOldDoc] by decide]
  intro hs
  have h2 : claimedPromotionOrder 0 plainNewDoc promotedOldDoc :=
    List.rel_of_sorted_cons hs promotedOldDoc (by simp)
  revert h2
  decide

/-- C3 amended: the default product listing is ordered by creation time
descending only; every returned document comes from the store and matches
the query, but the promotion rank comparator is not applied by the handler. -/
theorem listProducts_sorted_createdAt_desc (docs : List ProductDoc) (q : ProductQuery) :
    List.Sorted createdAtDescLE (listProducts docs q) ∧
    ∀ d, d ∈ listProducts docs q → d ∈ docs ∧ listingMatchesQuery q d = true := by
  constructor
  · have hs : List.Sorted createdAtDescLE
        ((docs.filter (listingMatchesQuery q)).insertionSort createdAtDescLE) :=
      List.sorted_insertionSort createdAtDescLE _
    exact List.Pairwise.sublist
      ((List.take_sublist _ _).trans (List.drop_sublist _ _)) hs
  · intro d hd
    have hmem : d ∈ (docs.filter (listingMatchesQuery q)).insertionSort createdAtDescLE :=
      ((List.take_sublist _ _).trans (List.drop_sublist _ _)).mem hd
    rw [(List.perm_insertionSort createdAtDescLE _).mem_iff, List.mem_filter] at hmem
    exact hmem

/-- Witness for C3 amended at the concrete two-listing store. -/
theorem listProducts_sorted_createdAt_desc_witness :
    List.Sorted createdAtDescLE
        (listProducts [promotedOldDoc, plainNewDoc] defaultProductQuery) ∧
      plainNewDoc ∈ [promotedOldDoc, plainNewDoc] ∧
      listingMatchesQuery defaultProductQuery plainNewDoc = true :=
  ⟨(listProducts_sorted_createdAt_desc [promotedOldDoc, plainNewDoc] defaultProductQuery).1,
    (listProducts_sorted_createdAt_desc [promotedOldDoc, plainNewDoc]
      defaultProductQuery).2 plainNewDoc (by decide)⟩

/-- The pre-save hook preserves the type and price, clears rentPeriod on
sell, and on rent guarantees a present rentPeriod. -/
theorem listingPreSave_invariants (l l2 : Listing) (h : listingPreSave l = .ok l2) :
    l2.type = l.type ∧ (l.type = "sell" → l2.rentPeriod = none) ∧
      (l2.type = "rent" → l2.rentPeriod.isSome = true) ∧ l2.price = l.price := by
  by_cases hsell : l.type = "sell"
  · by_cases hth : (strFalsy l.thumbnail && decide (0 < l.images.length)) = true
    all_goals (simp [listingPreSave, hsell, hth] at h; subst h; simp [hsell])
  · by_cases hrent : l.type = "rent"
    · by_cases hrp : strFalsy l.rentPeriod = true
      · simp [listingPreSave, hsell, hrent, hrp] at h
      · rw [Bool.not_eq_true] at hrp
        have hsome : l.rentPeriod.isSome = true := by
          cases hlr : l.rentPeriod with
          | none => rw [hlr] at hrp; simp [strFalsy] at hrp
          | some s => rfl
        by_cases hth : (strFalsy l.thumbnail && decide (0 < l.images.length)) = true
        all_goals (simp [listingPreSave, hsell, hrent, hrp, hth] at h; subst h; simp [hrent, hsell, hsome])
    · by_cases hth : (strFalsy l.thumbnail && decide (0 < l.images.length)) = true
      all_goals (simp [listingPreSave, hsell, hrent, hth] at h; subst h; simp [hsell, hrent])

/-- C5: creating a listing with type rent and a missing (or blank)
rentPeriod never succeeds, and when every earlier validation passes it
fails with exactly the 400 rent-period validation error; a successful
write (create, and every save through the hook, hence also update) stores
no rentPeriod when the type is sell even if one was supplied, and always
stores one when the type is rent. -/
theorem rent_sell_write_rules
    (findCat : Nat → Option Category) (slugExists : String → Bool)
    (ownerId : Nat) (body : CreateBody) (now : Nat) :
    (body.type = some "rent" → strFalsy body.rentPeriod = true →
      (∀ l, createProduct findCat slugExists ownerId body now ≠ .ok l) ∧
      (titleOf body ≠ "" →
       isValidSlug (slugOf body now).data = true →
       slugExists (slugOf body now) = false →
       descriptionOf body ≠ "" →
       (∀ c, body.category = some c → c.name ≠ "" ∧ c.slug ≠ "") →
       body.category.isSome = true →
       (body.categoryId.isSome = true → (findCat (body.categoryId.getD 0)).isSome = true) →
       (body.priceType = some "negotiable" ∨ ∃ p, body.price = some p ∧ 0 ≤ p) →
       createProduct findCat slugExists ownerId body now =
         .error (400, "Rent period is required for rent listings"))) ∧
    (∀ l, createProduct findCat slugExists ownerId body now = .ok l →
      (l.type = "sell" → l.rentPeriod = none) ∧
      (l.type = "rent" → l.rentPeriod.isSome = true)) := by
  constructor
  · intro hb hrp
    have hg : (decide (typeOf body = "rent") && (rentPeriodOf body).isNone) = true := by
      simp [typeOf, rentPeriodOf, hb, hrp]
    constructor
    · intro l h
      cases hv : validateProduct findCat slugExists ownerId body now with
      | error e =>
        unfold createProduct at h
        rw [hv] at h
        exact Except.noConfusion h
      | ok pending =>
        simp only [validateProduct] at hv
        simp only [hg, if_true] at hv
        repeat' split at hv
        all_goals exact Except.noConfusion hv
    · intro htitle hval hex hdesc hcat hcatsome hcatid hprice
      obtain ⟨c, hc⟩ := Option.isSome_iff_exists.mp hcatsome
      obtain ⟨hcn, hcs⟩ := hcat c hc
      have hslugne : slugOf body now ≠ "" := by
        intro he
        rw [he] at hval
        exact absurd hval (by decide)
      have hcid : (body.categoryId.isSome && (findCat (body.categoryId.getD 0)).isNone) = false := by
        cases hci : body.categoryId.isSome with
        | false => simp
        | true =>
          obtain ⟨cat0, hcat0⟩ := Option.isSome_iff_exists.mp (hcatid hci)
          simp [hcat0]
      have hpr : (decide (priceTypeOf body = "fixed")
          && (body.price.isNone || decide (body.price.getD 0 < 0))) = false := by
        rcases hprice with hpt | ⟨p, hp, hp0⟩
        · simp [priceTypeOf, hpt]
        · simp [hp]
          omega
      have hvr : validateProduct findCat slugExists ownerId body now =
          .error (400, "Rent period is required for rent listings") := by
        simp [validateProduct, htitle, hval, hslugne, hex, hdesc, hc, hcn, hcs, hcid,
          hpr, hg]
      unfold createProduct
      rw [hvr]
  · intro l h
    unfold createProduct at h
    cases hv : validateProduct findCat slugExists ownerId body now with
    | error e =>
      rw [hv] at h
      exact Except.noConfusion h
    | ok pending =>
      rw [hv] at h
      have h2 : (match listingPreSave pending with
          | .ok saved => (Except.ok saved : Except (Nat × String) Listing)
          | .error _ => .error (500, "Failed to create product")) = .ok l := h
      cases hps : listingPreSave pending with
      | error e2 =>
        rw [hps] at h2
        exact Except.noConfusion h2
      | ok saved =>
        rw [hps] at h2
        have h3 : (Except.ok saved : Except (Nat × String) Listing) = .ok l := h2
        rw [Except.ok.injEq] at h3
        subst h3
        have hi := listingPreSave_invariants _ _ hps
        exact ⟨fun hs => hi.2.1 (by rw [← hi.1]; exact hs), fun hr => hi.2.2.1 hr⟩

/-- Witness for C5: the concrete rent body with no rentPeriod is rejected
with the 400 rent-period message. -/
theorem rent_sell_write_rules_witness :
    createProduct (fun _ => none) (fun _ => false) 1 rentBodyNoPeriod 7 =
      .error (400, "Rent period is required for rent listings") :=
  ((rent_sell_write_rules (fun _ => none) (fun _ => false) 1 rentBodyNoPeriod 7).1
    rfl rfl).2 (by decide) (by decide) rfl (by decide)
    (fun c hc => by cases hc; exact ⟨by decide, by decide⟩) rfl
    (fun hci => by simp [rentBodyNoPeriod] at hci)
    (Or.inr ⟨10, rfl, by decide⟩)

/-- C9: a fixed-price creation with a negative numeric price never
succeeds and, once the earlier checks pass, is rejected with exactly the
400 price validation error; a negotiable creation without a numeric price
stores price 0. -/
theorem price_rules
    (findCat : Nat → Option Category) (slugExists : String → Bool)
    (ownerId : Nat) (body : CreateBody) (now : Nat) :
    (body.priceType = some "fixed" → (∃ p, body.price = some p ∧ p < 0) →
      (∀ l, createProduct findCat slugExists ownerId body now ≠ .ok l) ∧
      (titleOf body ≠ "" →
       isValidSlug (slugOf body now).data = true →
       slugExists (slugOf body now) = false →
       descriptionOf body ≠ "" →
       (∀ c, body.category = some c → c.name ≠ "" ∧ c.slug ≠ "") →
       body.category.isSome = true →
       (body.categoryId.isSome = true → (findCat (body.categoryId.getD 0)).isSome = true) →
       createProduct findCat slugExists ownerId body now =
         .error (400, "Valid price is required"))) ∧
    (body.priceType = some "negotiable" → body.price = none →
      ∀ l, createProduct findCat slugExists ownerId body now = .ok l → l.price = 0) := by
  constructor
  · rintro hfix ⟨p, hp, hpneg⟩
    have hg : (decide (priceTypeOf body = "fixed")
        && (body.price.isNone || decide (body.price.getD 0 < 0))) = true := by
      simp [priceTypeOf, hfix, hp, hpneg]
    constructor
    · intro l h
      cases hv : validateProduct findCat slugExists ownerId body now with
      | error e =>
        unfold createProduct at h
        rw [hv] at h
        exact Except.noConfusion h
      | ok pending =>
        simp only [validateProduct] at hv
        simp only [hg, if_true] at hv
        repeat' split at hv
        all_goals exact Except.noConfusion hv
    · intro htitle hval hex hdesc hcat hcatsome hcatid
      obtain ⟨c, hc⟩ := Option.isSome_iff_exists.mp hcatsome
      obtain ⟨hcn, hcs⟩ := hcat c hc
      have hslugne : slugOf body now ≠ "" := by
        intro he
        rw [he] at hval
        exact absurd hval (by decide)
      have hcid : (body.categoryId.isSome && (findCat (body.categoryId.getD 0)).isNone) = false := by
        cases hci : body.categoryId.isSome with
        | false => simp
        | true =>
          obtain ⟨cat0, hcat0⟩ := Option.isSome_iff_exists.mp (hcatid hci)
          simp [hcat0]
      have hvr : validateProduct findCat slugExists ownerId body now =
          .error (400, "Valid price is required") := by
        simp [validateProduct, htitle, hval, hslugne, hex, hdesc, hc, hcn, hcs, hcid, hg]
      unfold createProduct
      rw [hvr]
  · intro hneg hnone l h
    unfold createProduct at h
    cases hv : validateProduct findCat slugExists ownerId body now with
    | error e =>
      rw [hv] at h
      exact Except.noConfusion h
    | ok pending =>
      have hpend : pending.price = 0 := by
        simp only [validateProduct] at hv
        repeat' split at hv
        any_goals exact Except.noConfusion hv
        rw [Except.ok.injEq] at hv
        subst hv
        simp [pendingListing, priceValueOf, priceTypeOf, hneg, hnone]
      rw [hv] at h
      have h2 : (match listingPreSave pending with
          | .ok saved => (Except.ok saved : Except (Nat × String) Listing)
          | .error _ => .error (500, "Failed to create product")) = .ok l := h
      cases hps : listingPreSave pending with
      | error e2 =>
        rw [hps] at h2
        exact Except.noConfusion h2
      | ok saved =>
        rw [hps] at h2
        have h3 : (Except.ok saved : Except (Nat × String) Listing) = .ok l := h2
        rw [Except.ok.injEq] at h3
        subst h3
        have hi := listingPreSave_invariants _ _ hps
        rw [hi.2.2.2]
        exact hpend

/-- Witness for C9: the concrete fixed-price body with price -5 is rejected
with the 400 price message, and the concrete negotiable body with no price
is stored with price 0. -/
theorem price_rules_witness :
    createProduct (fun _ => none) (fun _ => false) 1 fixedNegBody 7 =
      .error (400, "Valid price is required") ∧
    negotiableCreated.price = 0 :=
  ⟨((price_rules (fun _ => none) (fun _ => false) 1 fixedNegBody 7).1
      rfl ⟨-5, rfl, by decide⟩).2 (by decide) (by decide) rfl (by decide)
      (fun c hc => by cases hc; exact ⟨by decide, by decide⟩) rfl
      (fun hci => by simp [fixedNegBody] at hci),
    (price_rules (fun _ => none) (fun _ => false) 1 negotiableNoPriceBody 7).2
      rfl rfl negotiableCreated rfl⟩

/-- The loop produces exactly the block-structured trace. -/
theorem processLoop_eq_expected (resize : Nat → Nat → Nat)
    (store : String → Option Nat) (productId : String) :
    ∀ (keys : List String) (i : Nat), (∀ k ∈ keys, (store k).isSome = true) →
      processLoop resize store productId i keys =
        .ok (expectedOpsFrom resize store productId i keys) := by
  intro keys
  induction keys with
  | nil => intro i _; rfl
  | cons k rest ih =>
    intro i hall
    obtain ⟨raw, hraw⟩ := Option.isSome_iff_exists.mp (hall k (by simp))
    have hrest : ∀ k2 ∈ rest, (store k2).isSome = true :=
      fun k2 hk2 => hall k2 (by simp [hk2])
    simp only [processLoop, hraw, ih (i + 1) hrest]
    simp [expectedOpsFrom, opsBlockOf, hraw]

/-- C6: for every non-empty list of temp keys whose objects are all
fetchable and a configured public URL, processProductImages succeeds; the
trace is exactly, in input order: for the first key a fetch, the 400x400
cover thumbnail put, the 800x800 cover image-1 put, then the deletion of
that temp key; for each later key at position i a fetch, the 800x800
cover image-(i+1) put, then the deletion of that temp key — so every
derived output is stored under its deterministic per-listing key before
its temp source is deleted; and the returned value is the public thumbnail
URL together with the public image URLs in input order. -/
theorem processProductImages_spec (resize : Nat → Nat → Nat)
    (store : String → Option Nat) (publicUrl productId : String)
    (tempKeys : List String)
    (hne : tempKeys ≠ []) (hurl : publicUrl ≠ "")
    (hall : ∀ k ∈ tempKeys, (store k).isSome = true) :
    processProductImages resize store publicUrl productId tempKeys =
      .ok (some (publicUrl ++ "/" ++ thumbnailKey productId),
        (List.range tempKeys.length).map (fun i => publicUrl ++ "/" ++ imageKey productId i),
        expectedOpsFrom resize store productId 0 tempKeys) := by
  unfold processProductImages
  rw [if_neg (by simp [hne]), if_neg hurl,
    processLoop_eq_expected resize store productId tempKeys 0 hall]

/-- Witness for C6 at two concrete temp keys: the full trace, with the
thumbnail and image-1 derived from the first key before its deletion and
image-2 from the second key before its deletion. -/
theorem processProductImages_spec_witness :
    processProductImages (fun b s => b * 1000 + s)
      (fun k => if k = "temp/products/u/a.jpg" then some 5 else
        if k = "temp/products/u/b.jpg" then some 6 else none)
      "https://cdn" "p1" ["temp/products/u/a.jpg", "temp/products/u/b.jpg"] =
      .ok (some "https://cdn/products/p1/thumbnail.jpg",
        ["https://cdn/products/p1/image-1.jpg", "https://cdn/products/p1/image-2.jpg"],
        [S3Op.get "temp/products/u/a.jpg",
         S3Op.put "products/p1/thumbnail.jpg" 5400,
         S3Op.put "products/p1/image-1.jpg" 5800,
         S3Op.del "temp/products/u/a.jpg",
         S3Op.get "temp/products/u/b.jpg",
         S3Op.put "products/p1/image-2.jpg" 6800,
         S3Op.del "temp/products/u/b.jpg"]) := by
  rw [processProductImages_spec (fun b s => b * 1000 + s)
    (fun k => if k = "temp/products/u/a.jpg" then some 5 else
      if k = "temp/products/u/b.jpg" then some 6 else none)
    "https://cdn" "p1" ["temp/products/u/a.jpg", "temp/products/u/b.jpg"]
    (by decide) (by decide) (by decide)]
  rfl

theorem head_dropWhile_false (p : Char → Bool) (l : List Char) (a : Char)
    (h : (l.dropWhile p).head? = some a) : p a = false := by
  induction l with
  | nil => simp [List.dropWhile] at h
  | cons c rest ih =>
    rw [List.dropWhile] at h
    split at h
    · exact ih h
    · rename_i hc
      simp only [List.head?_cons, Option.some_inj] at h
      subst h
      simpa using hc

theorem runState_getLast (p : Char → Bool) (b : Bool) (l : List Char) :
    runState p b l = match l.getLast? with
      | some c => p c
      | none => b := by
  induction l generalizing b with
  | nil => rfl
  | cons c rest ih =>
    cases rest with
    | nil => rfl
    | cons d rest2 =>
      rw [show runState p b (c :: d :: rest2) = runState p (p c) (d :: rest2) from rfl,
        ih, List.getLast?_cons_cons]
      cases hg : (d :: rest2).getLast? with
      | none => exact absurd (List.getLast?_eq_none_iff.mp hg) (by simp)
      | some e => rfl

theorem runState_all_true (p : Char → Bool) (b : Bool) (l : List Char)
    (hne : l ≠ []) (hall : ∀ c ∈ l, p c = true) : runState p b l = true := by
  rw [runState_getLast]
  cases hl : l.getLast? with
  | none => exact absurd (List.getLast?_eq_none_iff.mp hl) hne
  | some c => exact hall c (List.mem_of_mem_getLast? (by rw [hl]; rfl))

theorem collapseAux_append (p : Char → Bool) (o : Char) (s t : List Char) :
    ∀ b, collapseAux p o b (s ++ t) =
      collapseAux p o b s ++ collapseAux p o (runState p b s) t := by
  induction s with
  | nil => intro b; rfl
  | cons c rest ih =>
    intro b
    by_cases hc : p c = true <;> cases b <;>
      simp [List.cons_append, collapseAux, hc, ih, runState]

theorem collapseAux_cons (p : Char → Bool) (o : Char) (b : Bool) (c : Char)
    (rest : List Char) :
    collapseAux p o b (c :: rest) =
      if p c = true then
        (if b = true then collapseAux p o true rest else o :: collapseAux p o true rest)
      else c :: collapseAux p o false rest := by
  cases b <;> by_cases hc : p c = true <;> simp [collapseAux, hc]

theorem collapseAux_true_of_all (p : Char → Bool) (o : Char) (l : List Char)
    (hall : ∀ c ∈ l, p c = true) : collapseAux p o true l = [] := by
  induction l with
  | nil => rfl
  | cons c rest ih =>
    rw [collapseAux_cons, if_pos (hall c (by simp)), if_pos rfl]
    exact ih (fun d hd => hall d (by simp [hd]))

theorem collapseAux_false_of_all (p : Char → Bool) (o : Char) (l : List Char)
    (hne : l ≠ []) (hall : ∀ c ∈ l, p c = true) : collapseAux p o false l = [o] := by
  cases l with
  | nil => contradiction
  | cons c rest =>
    rw [collapseAux_cons, if_pos (hall c (by simp))]
    simp only [Bool.false_eq_true, if_false]
    rw [collapseAux_true_of_all p o rest (fun d hd => hall d (by simp [hd]))]

theorem collapseAux_true_eq (p : Char → Bool) (o : Char) (l : List Char) :
    collapseAux p o true l = collapseAux p o false (l.dropWhile p) := by
  induction l with
  | nil => rfl
  | cons c rest ih =>
    by_cases hc : p c = true
    · rw [List.dropWhile_cons_of_pos hc, collapseAux_cons, if_pos hc, if_pos rfl, ih]
    · rw [Bool.not_eq_true] at hc
      rw [List.dropWhile_cons_of_neg (by simp [hc]), collapseAux_cons,
        collapseAux_cons, hc]
      simp

theorem collapseAux_last (p : Char → Bool) (o : Char) (l : List Char) (c : Char)
    (hl : l.getLast? = some c) (hc : p c = false) :
    ∀ b, ∃ ys, collapseAux p o b l = ys ++ [c] := by
  induction l with
  | nil => simp at hl
  | cons a rest ih =>
    intro b
    cases rest with
    | nil =>
      simp only [List.getLast?_singleton, Option.some_inj] at hl
      subst hl
      refine ⟨[], ?_⟩
      rw [collapseAux_cons, hc]
      simp [collapseAux]
    | cons d rest2 =>
      rw [List.getLast?_cons_cons] at hl
      by_cases ha : p a = true
      · cases b with
        | true =>
          obtain ⟨ys, hy⟩ := ih hl true
          exact ⟨ys, by rw [collapseAux_cons, if_pos ha, if_pos rfl]; exact hy⟩
        | false =>
          obtain ⟨ys, hy⟩ := ih hl true
          refine ⟨o :: ys, ?_⟩
          rw [collapseAux_cons, if_pos ha]
          simp only [Bool.false_eq_true, if_false, hy]
          rfl
      · rw [Bool.not_eq_true] at ha
        obtain ⟨ys, hy⟩ := ih hl false
        refine ⟨a :: ys, ?_⟩
        rw [collapseAux_cons, ha]
        simp only [Bool.false_eq_true, if_false, hy]
        rfl

theorem stripLead_append (W t : List Char) (h : W ≠ []) :
    stripLead (W ++ t) = stripLead W ++ t := by
  cases W with
  | nil => contradiction
  | cons w ws2 =>
    rw [List.cons_append]
    by_cases hw : w = '-' <;> simp [stripLead, hw]

theorem stripTrail_concat_hyphen (x : List Char) : stripTrail (x ++ ['-']) = x := by
  unfold stripTrail
  rw [List.getLast?_concat]
  simp [List.dropLast_concat]

theorem stripTrail_of_last_ne (x : List Char) (c : Char)
    (hl : x.getLast? = some c) (hc : c ≠ '-') : stripTrail x = x := by
  unfold stripTrail
  rw [hl]
  simp [hc]

theorem stripLead_collapse (Z : List Char) :
    stripLead (collapseAux isHyphen '-' false Z) =
      collapseAux isHyphen '-' false (Z.dropWhile isHyphen) := by
  cases Z with
  | nil => rfl
  | cons z Zr =>
    by_cases hz : isHyphen z = true
    · have hz2 : z = '-' := by simpa [isHyphen] using hz
      subst hz2
      rw [collapseAux_cons, if_pos (by decide)]
      simp only [Bool.false_eq_true, if_false]
      rw [List.dropWhile_cons_of_pos (by decide)]
      rw [show stripLead ('-' :: collapseAux isHyphen '-' true Zr) =
        collapseAux isHyphen '-' true Zr from by simp [stripLead]]
      rw [collapseAux_true_eq]
    · have hz3 : ¬ z = '-' := fun he => hz (by simp [isHyphen, he])
      rw [List.dropWhile_cons_of_neg (by simpa using hz)]
      rw [collapseAux_cons, if_neg (by simpa using hz)]
      simp [stripLead, hz3]

theorem stripEdges_collapse_cons_hyphen (Z : List Char) :
    stripEdges (collapseRuns isHyphen '-' ('-' :: Z)) =
      stripEdges (collapseRuns isHyphen '-' Z) := by
  unfold stripEdges collapseRuns
  rw [collapseAux_cons, if_pos (by decide)]
  simp only [Bool.false_eq_true, if_false]
  rw [show stripLead ('-' :: collapseAux isHyphen '-' true Z) =
    collapseAux isHyphen '-' true Z from by simp [stripLead]]
  rw [collapseAux_true_eq, ← stripLead_collapse]

theorem stripEdges_collapse_concat_hyphen (Z : List Char) :
    stripEdges (collapseRuns isHyphen '-' (Z ++ ['-'])) =
      stripEdges (collapseRuns isHyphen '-' Z) := by
  cases hz : Z.getLast? with
  | none =>
    have hZ : Z = [] := List.getLast?_eq_none_iff.mp hz
    subst hZ
    rfl
  | some c =>
    have hrs : runState isHyphen false Z = isHyphen c := by
      rw [runState_getLast, hz]
    unfold collapseRuns
    rw [collapseAux_append, hrs]
    cases hc : isHyphen c with
    | true =>
      rw [collapseAux_true_of_all isHyphen '-' ['-'] (by decide)]
      simp
    | false =>
      rw [collapseAux_false_of_all isHyphen '-' ['-'] (by simp) (by decide)]
      obtain ⟨ys, hys⟩ := collapseAux_last isHyphen '-' Z c hz hc false
      rw [hys]
      have hcne : c ≠ '-' := by
        intro he
        rw [he] at hc
        exact absurd hc (by decide)
      have hgl : (stripLead (ys ++ [c])).getLast? = some c := by
        cases ys with
        | nil => simp [stripLead, hcne]
        | cons y yr =>
          rw [List.cons_append]
          by_cases hy : y = '-'
          · simp only [stripLead, if_pos hy]
            exact List.getLast?_concat _
          · simp only [stripLead, if_neg hy]
            rw [← List.cons_append, List.getLast?_concat]
      unfold stripEdges
      rw [stripLead_append _ ['-'] (by simp), stripTrail_concat_hyphen,
        stripTrail_of_last_ne _ c hgl hcne]

/-- Dropping leading whitespace does not change the derived slug: the
leading whitespace run becomes a single leading hyphen which the final
replace removes. -/
theorem slugCore_dropWhile_ws (m : List Char) :
    slugCore (m.dropWhile isJsWs) = slugCore m := by
  cases hw : m.takeWhile isJsWs with
  | nil =>
    have hx : m.dropWhile isJsWs = m := by
      have h1 := List.takeWhile_append_dropWhile (p := isJsWs) (l := m)
      rw [hw] at h1
      simpa using h1
    rw [hx]
  | cons w0 wr =>
    have hsplit : m = (w0 :: wr) ++ m.dropWhile isJsWs := by
      conv_lhs => rw [← List.takeWhile_append_dropWhile (p := isJsWs) (l := m)]
      rw [hw]
    have hallw : ∀ c ∈ (w0 :: wr), isJsWs c = true := by
      intro c hc
      exact List.mem_takeWhile_imp (hw ▸ hc)
    have hdropidem : (m.dropWhile isJsWs).dropWhile isJsWs = m.dropWhile isJsWs :=
      List.dropWhile_idempotent isJsWs m
    have key : collapseRuns isJsWs '-' m =
        '-' :: collapseRuns isJsWs '-' (m.dropWhile isJsWs) := by
      conv_lhs => rw [hsplit]
      unfold collapseRuns
      rw [collapseAux_append, collapseAux_false_of_all _ _ _ (by simp) hallw,
        runState_all_true _ _ _ (by simp) hallw, collapseAux_true_eq, hdropidem]
      rfl
    unfold slugCore
    rw [key]
    rw [show ('-' :: collapseRuns isJsWs '-' (m.dropWhile isJsWs)).filter isSlugChar =
      '-' :: (collapseRuns isJsWs '-' (m.dropWhile isJsWs)).filter isSlugChar from by
        simp [List.filter_cons, isSlugChar]]
    exact (stripEdges_collapse_cons_hyphen _).symm

/-- Dropping trailing whitespace does not change the derived slug: the
trailing whitespace run becomes a trailing hyphen which is either absorbed
by the hyphen-run collapse or removed by the final replace. -/
theorem slugCore_dropTrailing_ws (x : List Char) :
    slugCore ((x.reverse.dropWhile isJsWs).reverse) = slugCore x := by
  cases hw : x.reverse.takeWhile isJsWs with
  | nil =>
    have hx : x.reverse.dropWhile isJsWs = x.reverse := by
      have h1 := List.takeWhile_append_dropWhile (p := isJsWs) (l := x.reverse)
      rw [hw] at h1
      simpa using h1
    rw [hx, List.reverse_reverse]
  | cons w0 wr =>
    have hsplit : x = (x.reverse.dropWhile isJsWs).reverse ++ (w0 :: wr).reverse := by
      have h1 : x.reverse = (w0 :: wr) ++ x.reverse.dropWhile isJsWs := by
        conv_lhs => rw [← List.takeWhile_append_dropWhile (p := isJsWs) (l := x.reverse)]
        rw [hw]
      have h2 := congrArg List.reverse h1
      rw [List.reverse_reverse, List.reverse_append] at h2
      exact h2
    have hallw : ∀ c ∈ (w0 :: wr).reverse, isJsWs c = true := by
      intro c hc
      rw [List.mem_reverse] at hc
      exact List.mem_takeWhile_imp (hw ▸ hc)
    have hrs : runState isJsWs false ((x.reverse.dropWhile isJsWs).reverse) = false := by
      rw [runState_getLast]
      cases hgl : ((x.reverse.dropWhile isJsWs).reverse).getLast? with
      | none => rfl
      | some c =>
        rw [List.getLast?_reverse] at hgl
        exact head_dropWhile_false _ _ _ hgl
    have key : collapseRuns isJsWs '-' x =
        collapseRuns isJsWs '-' ((x.reverse.dropWhile isJsWs).reverse) ++ ['-'] := by
      conv_lhs => rw [hsplit]
      unfold collapseRuns
      rw [collapseAux_append, hrs, collapseAux_false_of_all _ _ _ (by simp) hallw]
    unfold slugCore
    rw [key, List.filter_append]
    rw [show (['-'].filter isSlugChar) = ['-'] from rfl]
    exact (stripEdges_collapse_concat_hyphen _).symm

/-- The initial trim of the title is redundant for the derived slug. -/
theorem slugCore_jsTrim (l : List Char) :
    slugCore (jsLowerList (jsTrimList l)) = slugCore (jsLowerList l) := by
  rw [← jsTrimList_jsLowerList]
  show slugCore
    (((jsLowerList l).dropWhile isJsWs).reverse.dropWhile isJsWs).reverse =
    slugCore (jsLowerList l)
  rw [slugCore_dropTrailing_ws ((jsLowerList l).dropWhile isJsWs)]
  exact slugCore_dropWhile_ws (jsLowerList l)

/-- C4 amended: a listing created without a slug derives it from the title
via slugFromTitle, and slugFromTitle equals the amended description:
lowercase the title, convert whitespace runs to single hyphens, delete the
other non-alphanumeric characters, collapse hyphen runs, trim one leading
and one trailing hyphen, fall back to the generated token listing-now when
the derivation is empty. -/
theorem slugFromTitle_amended (title : String) (now : Nat) :
    requestSlug none title now = slugFromTitle title now ∧
    slugFromTitle title now = slugFromTitleAmendedSpec title now := by
  refine ⟨rfl, ?_⟩
  unfold slugFromTitle slugFromTitleAmendedSpec slugDerive
  by_cases ht : title = ""
  · subst ht
    rfl
  · rw [if_neg ht, slugCore_jsTrim]

/-- C4 counterexample: creating a listing titled a.b with no slug stores
the slug ab (the period is deleted), while the claimed derivation, which
collapses every non-alphanumeric to a hyphen, yields a-b. -/
theorem slug_claim_counterexample :
    createProduct (fun _ => none) (fun _ => false) 1 dotTitleBody 99 = .ok dotTitleCreated ∧
    dotTitleCreated.slug = "ab" ∧
    slugFromTitleClaimed "a.b" 99 = "a-b" ∧
    ("ab" : String) ≠ "a-b" :=
  ⟨rfl, rfl, by decide, by decide⟩

end Wineo
